import Mathlib

/-!
Verification of the epub-to-image extraction pipeline (src/epub2img.py) and the
image-to-text OCR pipeline (src/img2text.py).

Strings of the Python source are modelled as lists of characters (`Str`);
filesystem paths as lists of path components (`FPath`).  External collaborators
(the image codec, the HTML parser, the OCR engine, the epub reader) are
parameters of the embedded functions: `decodeOk` abstracts a successful
PIL `Image.open`/`save` round trip, `parseImgSrcs` abstracts BeautifulSoup's
`find_all('img')` followed by `get('src')` (a `none` entry is an `<img>` with
no src attribute), `readEpub` abstracts `epub.read_epub` (`none` = the reader
raised), and `readtext` abstracts `easyocr.Reader.readtext` (`Except.error` =
the engine raised).
-/

abbrev Str := List Char

abbrev FPath := List Str

/-- Python `s.split(sep)` for a one-character separator: the resulting list is
never empty and joining it with `sep` gives back `s`. -/
def splitOnChar (sep : Char) : Str → List Str
  | [] => [[]]
  | c :: rest =>
    match splitOnChar sep rest with
    | [] => [[]]
    | l :: ls => if c = sep then [] :: l :: ls else (c :: l) :: ls

/-- Index of the last occurrence of `c` (Python `str.rfind`, `none` for -1). -/
def rfindIdx (c : Char) : Str → Option Nat
  | [] => none
  | a :: rest =>
    match rfindIdx c rest with
    | some i => some (i + 1)
    | none => if a = c then some 0 else none

/-- `PurePath.suffix` of CPython's pathlib applied to a file name: the part of
the name from its last dot on, empty when the last dot is absent, leading or
trailing. -/
def pySuffix (name : Str) : Str :=
  match rfindIdx '.' name with
  | some i => if 0 < i ∧ i + 1 < name.length then name.drop i else []
  | none => []

/-- `PurePath.with_suffix` of CPython's pathlib applied to a file name: replace
the suffix when there is one, append the new suffix otherwise. -/
def pyWithSuffix (name suffix : Str) : Str :=
  if pySuffix name = [] then name ++ suffix
  else name.take (name.length - (pySuffix name).length) ++ suffix

/-- `PurePath.stem` of CPython's pathlib: the file name without its suffix. -/
def pyStem (name : Str) : Str := name.take (name.length - (pySuffix name).length)

/-- ASCII lower-casing of one character (Python `str.lower` on the ASCII
strings handled by both scripts). -/
def lowerChar (c : Char) : Char :=
  if 'A' ≤ c ∧ c ≤ 'Z' then Char.ofNat (c.toNat + 32) else c

/-- Python `str.lower` (ASCII). -/
def lowerStr (s : Str) : Str := s.map lowerChar

/-- Python `str.lstrip(chars)`: remove every leading character that belongs to
the character set `chars` (NOT prefix removal). -/
def pyLstrip (chars : Str) (s : Str) : Str := s.dropWhile (fun c => chars.contains c)

/-- Python `needle in hay` on strings: substring containment. -/
def isSubstr (needle hay : Str) : Bool := hay.tails.any (fun t => needle.isPrefixOf t)

/-- One resource inside an epub container, as exposed by the ebooklib item API
used at src/epub2img.py: `id`, `media_type`, `file_name` and the raw byte
`content` (ebooklib always hands the scripts `bytes` content, so the
`isinstance(item.content, (bytes, bytearray))` guard at line 32 is the
identity in this model). -/
structure EpubItem where
  id : Str
  media_type : Str
  file_name : Str
  content : List Nat
deriving DecidableEq

/-- One file written by the extractor: its full path and the source payload
that was handed to the codec (PIL's re-encoding of the payload is not
modelled; only which files get written matters here). -/
structure WriteEvent where
  path : FPath
  data : List Nat
deriving DecidableEq

/-- The extension allow-list of src/epub2img.py lines 43 and 82. -/
def validExtensions : List Str :=
  ["jpeg".toList, "jpg".toList, "png".toList, "gif".toList]

/-- `item.media_type.split('/')[-1]` (src/epub2img.py lines 36 and 79). -/
def mediaSuffix (media_type : Str) : Str := (splitOnChar '/' media_type).getLastD []

/-- The extension finally used for a written image (src/epub2img.py lines
36-44 and 79-83): the media-type suffix when its lower-casing is in the
allow-list (the original case is kept), the literal `jpg` otherwise. -/
def extOf (media_type : Str) : Str :=
  if validExtensions.contains (lowerStr (mediaSuffix media_type)) then mediaSuffix media_type
  else "jpg".toList

/-- `f"{item.id}.{img_extension}"` (src/epub2img.py lines 46 and 85). -/
def imageName (it : EpubItem) : Str := it.id ++ '.' :: extOf it.media_type

/-- The body of the inner resolution loop of src/epub2img.py lines 72-91 for
one candidate image item: write it when the cleaned src is a substring of its
file name, it is not `image/svg+xml`, and the codec accepts its payload. -/
def resolveWrite (decodeOk : List Nat → Bool) (output_folder : FPath) (src : Str)
    (it : EpubItem) : List WriteEvent :=
  if isSubstr src it.file_name then
    if it.media_type = "image/svg+xml".toList then []
    else if decodeOk it.content then [⟨output_folder ++ [imageName it], it.content⟩]
    else []
  else []

/-- The two `lstrip` passes of src/epub2img.py lines 68-69: both strip the
character set of their argument, so each is a `dropWhile` over a set. -/
def cleanSrc (src : Str) : Str := pyLstrip "../".toList (pyLstrip "./".toList src)

/-- `epub_book.get_items_of_type(ebooklib.ITEM_IMAGE)` (src/epub2img.py line
72), modelled per the spec as the container's resources whose media type
starts with `image/`, in container-native order. -/
def imageItems (book : List EpubItem) : List EpubItem :=
  book.filter (fun it => "image/".toList.isPrefixOf it.media_type)

/-- The per-src body of the markup loop, src/epub2img.py lines 60-91: skip a
missing or empty src (`if src:`), skip external `http` references, clean the
src, then run the resolution loop over every image item of the container. -/
def handleSrc (decodeOk : List Nat → Bool) (book : List EpubItem) (output_folder : FPath)
    (osrc : Option Str) : List WriteEvent :=
  match osrc with
  | none => []
  | some src =>
    if src = [] then []
    else if "http".toList.isPrefixOf src then []
    else (imageItems book).foldl
      (fun acc it => acc ++ resolveWrite decodeOk output_folder (cleanSrc src) it) []

/-- `EPUBImageConverter.extract_images_from_item` (src/epub2img.py lines
29-94), returning the ordered list of files it writes.  The direct-image
branch computes the media-type suffix, skips the item when that suffix
lower-cases to exactly `svg` (line 39), maps it through the allow-list and
writes when the codec accepts the payload; the markup branch iterates the
parsed `<img>` src values. -/
def extract_images_from_item (decodeOk : List Nat → Bool)
    (parseImgSrcs : List Nat → List (Option Str)) (item : EpubItem)
    (book : List EpubItem) (output_folder : FPath) : List WriteEvent :=
  if "image/".toList.isPrefixOf item.media_type then
    if lowerStr (mediaSuffix item.media_type) = "svg".toList then []
    else if decodeOk item.content then [⟨output_folder ++ [imageName item], item.content⟩]
    else []
  else if item.media_type = "application/xhtml+xml".toList then
    (parseImgSrcs item.content).foldl
      (fun acc osrc => acc ++ handleSrc decodeOk book output_folder osrc) []
  else []

/-- A snapshot of the filesystem: the directories and files that exist.  Used
to give semantics to the two `rglob` scanners. -/
structure FS where
  dirs : List FPath
  files : List FPath

/-- `p` lies strictly below `root`. -/
def isUnder (root p : FPath) : Bool := root.isPrefixOf p && decide (root.length < p.length)

/-- `EPUBImageConverter.find_epubs` (src/epub2img.py lines 25-27):
`list(self.input_folder.rglob("*.epub"))`.  CPython's `Path.rglob` simply
yields nothing when the root directory does not exist — it raises no error
(verified against CPython's pathlib) — so the scanner is a total function of
the filesystem snapshot. -/
def find_epubs (fs : FS) (input_folder : FPath) : List FPath :=
  fs.files.filter
    (fun p => isUnder input_folder p && ".epub".toList.isSuffixOf (p.getLastD []))

/-- The OCR pipeline's recognized-extension set (src/img2text.py line 66). -/
def image_extensions : List Str :=
  [".png".toList, ".jpg".toList, ".jpeg".toList, ".tiff".toList, ".bmp".toList]

/-- The image scanner of src/img2text.py lines 69-70:
`list(input_root.rglob('*'))` filtered by `img.suffix.lower() in
image_extensions`.  As with `find_epubs`, a missing root makes `rglob` yield
nothing rather than raise. -/
def find_images (fs : FS) (input_root : FPath) : List FPath :=
  fs.files.filter
    (fun p => isUnder input_root p &&
      image_extensions.contains (lowerStr (pySuffix (p.getLastD []))))

/-- `EPUBImageConverter.process_epub` (src/epub2img.py lines 96-116): create
the per-epub subfolder (named by the stem), then read the epub; on a reader
failure return `False`; otherwise run the extractor over every item.  The
result records the directories created, the files written, and the returned
boolean.  `mkdir` is modelled as always succeeding. -/
def process_epub (decodeOk : List Nat → Bool) (parseImgSrcs : List Nat → List (Option Str))
    (readEpub : FPath → Option (List EpubItem)) (output_folder : FPath)
    (epub_path : FPath) : List FPath × List WriteEvent × Bool :=
  match readEpub epub_path with
  | none => ([output_folder ++ [pyStem (epub_path.getLastD [])]], [], false)
  | some items =>
    ([output_folder ++ [pyStem (epub_path.getLastD [])]],
     items.foldl
       (fun acc it =>
         acc ++ extract_images_from_item decodeOk parseImgSrcs it items
           (output_folder ++ [pyStem (epub_path.getLastD [])])) [],
     true)

/-- The success/failure tally loop shared by both batch drivers
(src/epub2img.py lines 123-130 and src/img2text.py lines 72-85). -/
def tallyLoop (processResult : FPath → Bool) (files : List FPath) : Nat × Nat :=
  files.foldl (fun c p => if processResult p then (c.1 + 1, c.2) else (c.1, c.2 + 1)) (0, 0)

/-- `EPUBImageConverter.process_all_epubs` (src/epub2img.py lines 118-134):
scan, then tally `process_epub` over every discovered epub. -/
def process_all_epubs (decodeOk : List Nat → Bool)
    (parseImgSrcs : List Nat → List (Option Str))
    (readEpub : FPath → Option (List EpubItem)) (input_folder output_folder : FPath)
    (fs : FS) : Nat × Nat :=
  tallyLoop (fun p => (process_epub decodeOk parseImgSrcs readEpub output_folder p).2.2)
    (find_epubs fs input_folder)

/-- `Path.relative_to` (src/img2text.py line 22): defined only when `root` is
a prefix of `p` (otherwise CPython raises `ValueError`). -/
def relative_to (p root : FPath) : Option FPath :=
  if root.isPrefixOf p then some (p.drop root.length) else none

/-- `Path.with_suffix` lifted to a path: rewrite the last component; CPython
raises on a path with no name (e.g. `Path('.')`), hence the `none`. -/
def pathWithSuffix (p : FPath) (suffix : Str) : Option FPath :=
  match p.getLast? with
  | none => none
  | some name => some (p.dropLast ++ [pyWithSuffix name suffix])

/-- `create_output_path` (src/img2text.py lines 20-25) without its
`mkdir(parents=True)` side effect: mirror the input path below the output
root, replacing the extension by `.txt`. -/
def create_output_path (input_path input_root output_root : FPath) : Option FPath :=
  (relative_to input_path input_root).bind (fun rel =>
    (pathWithSuffix rel ".txt".toList).map (fun out => output_root ++ out))

/-- The four header lines of the OCR artifact (src/img2text.py lines 35-38):
three labelled lines and the 50-dash separator line followed by the blank
line. -/
def headerBlock (image_name date_str user : Str) : Str :=
  ("Source Image: ".toList ++ image_name ++ ['\n'])
  ++ ("Processing Date (UTC): ".toList ++ date_str ++ ['\n'])
  ++ ("Processed by: ".toList ++ user ++ ['\n'])
  ++ (List.replicate 50 '-' ++ ['\n', '\n'])

/-- The full text written for one successfully recognized image
(src/img2text.py lines 33-42): the header block then one line per recognized
text, each terminated by a newline (`f.write(text + '\n')`). -/
def artifactContent (image_name date_str user : Str) (result : List Str) : Str :=
  headerBlock image_name date_str user
    ++ result.foldl (fun acc t => acc ++ (t ++ ['\n'])) []

/-- `process_image` (src/img2text.py lines 27-48): run the engine; on an
engine exception nothing is written and `False` is returned (modelled as
`none`); on success the artifact content is written (`some content`).
`date_str` stands for `datetime.utcnow().strftime(...)` and `user` for
`os.getlogin()`. -/
def process_image (readtext : FPath → Except Unit (List Str)) (date_str user : Str)
    (image_path : FPath) : Option Str :=
  match readtext image_path with
  | Except.error _ => none
  | Except.ok result => some (artifactContent (image_path.getLastD []) date_str user result)

/-- State of the OCR batch loop: files written so far (path and content),
successful count, failed count. -/
abbrev OcrState := List (FPath × Str) × Nat × Nat

/-- The batch loop of `main` (src/img2text.py lines 77-85): for each image
compute the mirrored output path (an unresolvable path would raise out of the
loop — `Except.error`), then run `process_image` and bump the matching
counter. -/
def ocr_batch (readtext : FPath → Except Unit (List Str)) (date_str user : Str)
    (input_root output_root : FPath) : List FPath → OcrState → Except Unit OcrState
  | [], st => Except.ok st
  | image_path :: rest, st =>
    match create_output_path image_path input_root output_root with
    | none => Except.error ()
    | some output_path =>
      match process_image readtext date_str user image_path with
      | some content =>
        ocr_batch readtext date_str user input_root output_root rest
          (st.1 ++ [(output_path, content)], st.2.1 + 1, st.2.2)
      | none =>
        ocr_batch readtext date_str user input_root output_root rest
          (st.1, st.2.1, st.2.2 + 1)

/-- Split a text into its lines at newline characters (used to state the
artifact format; `splitLines s` has one entry per newline plus a final entry,
so a text ending in a newline ends in an empty entry). -/
def splitLines (s : Str) : List Str := splitOnChar '\n' s

/-- `s` contains no newline character. -/
def NlFree (s : Str) : Prop := '\n' ∉ s

instance (s : Str) : Decidable (NlFree s) := by unfold NlFree; infer_instance

/-! ## General lemmas about the list combinators used by the embedding -/

theorem foldl_append_flatten {α β : Type} (f : α → List β) (l : List α) (init : List β) :
    l.foldl (fun acc x => acc ++ f x) init = init ++ (l.map f).flatten := by
  induction l generalizing init with
  | nil => simp
  | cons a as ih => simp [ih]

theorem splitOnChar_ne_nil (sep : Char) (s : Str) : splitOnChar sep s ≠ [] := by
  cases s with
  | nil => simp [splitOnChar]
  | cons c rest =>
    rw [splitOnChar]
    cases h : splitOnChar sep rest with
    | nil => simp
    | cons l ls =>
      dsimp only
      split <;> simp

theorem splitOnChar_append_sep (sep : Char) (a rest : Str) (ha : sep ∉ a) :
    splitOnChar sep (a ++ sep :: rest) = a :: splitOnChar sep rest := by
  induction a with
  | nil =>
    rw [List.nil_append, splitOnChar]
    cases h : splitOnChar sep rest with
    | nil => exact absurd h (splitOnChar_ne_nil sep rest)
    | cons l ls => simp
  | cons c a ih =>
    have hc : c ≠ sep := fun e => ha (e ▸ List.mem_cons_self c a)
    rw [List.cons_append, splitOnChar, ih (fun hm => ha (List.mem_cons_of_mem c hm))]
    simp [hc]

theorem splitOnChar_flatten (sep : Char) (lines : List Str) (h : ∀ l ∈ lines, sep ∉ l) :
    splitOnChar sep ((lines.map (fun l => l ++ [sep])).flatten) = lines ++ [[]] := by
  induction lines with
  | nil => simp [splitOnChar]
  | cons l ls ih =>
    have h1 : sep ∉ l := h l (List.mem_cons_self l ls)
    have h2 : ∀ x ∈ ls, sep ∉ x := fun x hx => h x (List.mem_cons_of_mem l hx)
    simp only [List.map_cons, List.flatten_cons]
    rw [List.append_assoc, List.singleton_append, splitOnChar_append_sep sep l _ h1, ih h2]
    simp

theorem rfindIdx_append_of_some (c : Char) (xs ys : Str) (j : Nat)
    (h : rfindIdx c ys = some j) : rfindIdx c (xs ++ ys) = some (xs.length + j) := by
  induction xs with
  | nil => simpa using h
  | cons a as ih =>
    rw [List.cons_append, rfindIdx, ih]
    simp only [List.length_cons, Option.some.injEq]
    omega

/-! ## Lemmas about the pathlib suffix operations -/

theorem pySuffix_append_txt (stem : Str) (h : stem ≠ []) :
    pySuffix (stem ++ ".txt".toList) = ".txt".toList := by
  have h0 : rfindIdx '.' (".txt".toList) = some 0 := by decide
  have h1 : rfindIdx '.' (stem ++ ".txt".toList) = some stem.length := by
    simpa using rfindIdx_append_of_some '.' stem (".txt".toList) 0 h0
  have hl : 0 < stem.length := List.length_pos.mpr h
  rw [pySuffix, h1]
  dsimp only
  rw [if_pos]
  · exact List.drop_left stem _
  · refine ⟨hl, ?_⟩
    rw [List.length_append]
    have h4 : (".txt".toList).length = 4 := by decide
    omega

theorem pySuffix_spec (name : Str) (h : pySuffix name ≠ []) :
    name.take (name.length - (pySuffix name).length) ≠ [] ∧
      name.take (name.length - (pySuffix name).length) ++ pySuffix name = name := by
  revert h
  unfold pySuffix
  cases hf : rfindIdx '.' name with
  | none => intro h; simp at h
  | some i =>
    dsimp only
    by_cases hc : 0 < i ∧ i + 1 < name.length
    · rw [if_pos hc]
      intro _
      have hi : i ≤ name.length := by omega
      have hlen : (name.drop i).length = name.length - i := List.length_drop i name
      rw [hlen]
      have hsub : name.length - (name.length - i) = i := by omega
      rw [hsub]
      refine ⟨?_, List.take_append_drop i name⟩
      have htl : (name.take i).length = i := by rw [List.length_take]; omega
      intro he
      rw [he] at htl
      simp at htl
      omega
    · rw [if_neg hc]
      intro h
      simp at h

theorem pyWithSuffix_roundtrip (name : Str) (h : name ≠ []) :
    pyWithSuffix (pyWithSuffix name (".txt".toList)) (pySuffix name) = name := by
  have htxt : (".txt".toList : Str) ≠ [] := by decide
  by_cases hs : pySuffix name = []
  · have e1 : pyWithSuffix name (".txt".toList) = name ++ ".txt".toList := by
      rw [pyWithSuffix, if_pos hs]
    rw [e1, pyWithSuffix, pySuffix_append_txt name h, if_neg htxt, hs, List.append_nil]
    have hlen : (name ++ ".txt".toList).length - (".txt".toList).length = name.length := by
      rw [List.length_append]; omega
    rw [hlen, List.take_left]
  · obtain ⟨hstem, heq⟩ := pySuffix_spec name hs
    have e1 : pyWithSuffix name (".txt".toList) =
        name.take (name.length - (pySuffix name).length) ++ ".txt".toList := by
      rw [pyWithSuffix, if_neg hs]
    rw [e1, pyWithSuffix, pySuffix_append_txt _ hstem, if_neg htxt]
    have hlen : (name.take (name.length - (pySuffix name).length) ++ ".txt".toList).length -
        (".txt".toList).length = (name.take (name.length - (pySuffix name).length)).length := by
      rw [List.length_append]; omega
    rw [hlen, List.take_left]
    exact heq

/-! ## Lemmas about paths, tallies and extensions -/

theorem relative_to_append (root x : FPath) : relative_to (root ++ x) root = some x := by
  have h : root.isPrefixOf (root ++ x) = true := by
    rw [ List.isPrefixOf_iff_prefix]
    exact List.prefix_append root x
  rw [relative_to, if_pos h, List.drop_left]

theorem splitLines_append_line (a rest : Str) (ha : '\n' ∉ a) :
    splitLines (a ++ '\n' :: rest) = a :: splitLines rest :=
  splitOnChar_append_sep '\n' a rest ha

theorem splitLines_cons_nl (rest : Str) : splitLines ('\n' :: rest) = [] :: splitLines rest := by
  have h := splitOnChar_append_sep '\n' [] rest (by simp)
  simpa using h

theorem lowerStr_extOf_mem (mt : Str) : lowerStr (extOf mt) ∈ validExtensions := by
  rw [extOf]
  by_cases h : validExtensions.contains (lowerStr (mediaSuffix mt)) = true
  · rw [if_pos h]
    simpa using h
  · rw [if_neg h]
    decide

theorem tally_aux (pr : FPath → Bool) : ∀ (files : List FPath) (c : Nat × Nat),
    (files.foldl (fun c p => if pr p then (c.1 + 1, c.2) else (c.1, c.2 + 1)) c).1 +
      (files.foldl (fun c p => if pr p then (c.1 + 1, c.2) else (c.1, c.2 + 1)) c).2 =
      c.1 + c.2 + files.length
  | [], c => by simp
  | p :: ps, c => by
    simp only [List.foldl_cons, List.length_cons]
    by_cases hp : pr p = true
    · rw [if_pos hp, tally_aux pr ps]
      simp
      omega
    · rw [if_neg hp, tally_aux pr ps]
      simp
      omega

theorem tallyLoop_sum (pr : FPath → Bool) (files : List FPath) :
    (tallyLoop pr files).1 + (tallyLoop pr files).2 = files.length := by
  rw [tallyLoop]
  simpa using tally_aux pr files (0, 0)

theorem ocr_batch_counts (readtext : FPath → Except Unit (List Str)) (date_str user : Str)
    (input_root output_root : FPath) : ∀ (l : List FPath) (st res : OcrState),
    ocr_batch readtext date_str user input_root output_root l st = Except.ok res →
    res.2.1 + res.2.2 = st.2.1 + st.2.2 + l.length
  | [], st, res => by
    intro h
    rw [ocr_batch] at h
    cases h
    simp
  | p :: ps, st, res => by
    intro h
    rw [ocr_batch] at h
    cases hc : create_output_path p input_root output_root with
    | none =>
      rw [hc] at h
      exact absurd h (by simp)
    | some out =>
      rw [hc] at h
      dsimp only at h
      cases hp : process_image readtext date_str user p with
      | some content =>
        rw [hp] at h
        have hrec := ocr_batch_counts readtext date_str user input_root output_root ps
          (st.1 ++ [(out, content)], st.2.1 + 1, st.2.2) res h
        simp only [List.length_cons]
        simp at hrec
        omega
      | none =>
        rw [hp] at h
        have hrec := ocr_batch_counts readtext date_str user input_root output_root ps
          (st.1, st.2.1, st.2.2 + 1) res h
        simp only [List.length_cons]
        simp at hrec
        omega

/-! ## Claims -/

/-- C1 counterexample: the inner resolution loop of src/epub2img.py lines
72-91 has no `break`, so for one markup `<img src="pic">` and two image
resources whose file names both contain `pic`, BOTH resources are written —
the claim that only the first match is written and later matches are not is
false on this input: the write for the second matching item `im2` appears in
the output. -/
theorem C1_only_first_match_counterexample :
    extract_images_from_item (fun _ => true) (fun _ => [some ("pic".toList)])
      ⟨"page".toList, "application/xhtml+xml".toList, "page.xhtml".toList, [9]⟩
      [⟨"im1".toList, "image/png".toList, "images/pic1.png".toList, [0]⟩,
       ⟨"im2".toList, "image/png".toList, "images/pic2.png".toList, [1]⟩]
      ["out".toList, "book".toList] =
    [⟨["out".toList, "book".toList, "im1.png".toList], [0]⟩,
     ⟨["out".toList, "book".toList, "im2.png".toList], [1]⟩] := by
  decide

/-- C1 (amended): for a markup page, EVERY image resource whose file name
contains the cleaned src as a substring (not only the first) is written — in
container order — provided it is not `image/svg+xml` and its payload
decodes. -/
theorem C1_every_match_written (decodeOk : List Nat → Bool)
    (parseImgSrcs : List Nat → List (Option Str)) (item : EpubItem)
    (book : List EpubItem) (output_folder : FPath) (src : Str) (imgIt : EpubItem)
    (hmedia : item.media_type = "application/xhtml+xml".toList)
    (hsrc : some src ∈ parseImgSrcs item.content)
    (hne : src ≠ [])
    (hhttp : "http".toList.isPrefixOf src = false)
    (hmem : imgIt ∈ book)
    (himg : "image/".toList.isPrefixOf imgIt.media_type = true)
    (hsub : isSubstr (cleanSrc src) imgIt.file_name = true)
    (hsvg : imgIt.media_type ≠ "image/svg+xml".toList)
    (hdec : decodeOk imgIt.content = true) :
    (⟨output_folder ++ [imageName imgIt], imgIt.content⟩ : WriteEvent) ∈
      extract_images_from_item decodeOk parseImgSrcs item book output_folder := by
  rw [extract_images_from_item, if_neg (by rw [hmedia]; decide), if_pos hmedia,
    foldl_append_flatten, List.nil_append]
  apply List.mem_flatten.mpr
  refine ⟨handleSrc decodeOk book output_folder (some src), List.mem_map_of_mem _ hsrc, ?_⟩
  rw [handleSrc, if_neg hne, if_neg (by rw [hhttp]; simp), foldl_append_flatten,
    List.nil_append]
  apply List.mem_flatten.mpr
  refine ⟨resolveWrite decodeOk output_folder (cleanSrc src) imgIt,
    List.mem_map_of_mem _ ?_, ?_⟩
  · rw [imageItems]
    exact List.mem_filter.mpr ⟨hmem, himg⟩
  · rw [resolveWrite, if_pos hsub, if_neg hsvg, if_pos hdec]
    exact List.mem_singleton.mpr rfl

/-- C1 witness: the amended theorem at a concrete input — the second matching
image item of the counterexample container is indeed among the writes. -/
theorem C1_every_match_written_witness :
    (⟨["out".toList, "book".toList] ++
        [imageName ⟨"im2".toList, "image/png".toList, "images/pic2.png".toList, [1]⟩],
      [1]⟩ : WriteEvent) ∈
      extract_images_from_item (fun _ => true) (fun _ => [some ("pic".toList)])
        ⟨"page".toList, "application/xhtml+xml".toList, "page.xhtml".toList, [9]⟩
        [⟨"im1".toList, "image/png".toList, "images/pic1.png".toList, [0]⟩,
         ⟨"im2".toList, "image/png".toList, "images/pic2.png".toList, [1]⟩]
        ["out".toList, "book".toList] :=
  C1_every_match_written (fun _ => true) (fun _ => [some ("pic".toList)])
    ⟨"page".toList, "application/xhtml+xml".toList, "page.xhtml".toList, [9]⟩
    [⟨"im1".toList, "image/png".toList, "images/pic1.png".toList, [0]⟩,
     ⟨"im2".toList, "image/png".toList, "images/pic2.png".toList, [1]⟩]
    ["out".toList, "book".toList] ("pic".toList)
    ⟨"im2".toList, "image/png".toList, "images/pic2.png".toList, [1]⟩
    rfl (by decide) (by decide) (by decide) (by decide) (by decide) (by decide)
    (by decide) rfl

/-- C2 (code bug): the source's own comment at src/epub2img.py line 38 says
`Skip SVG files as we're not handling them`, but the guard at line 39 compares
`item.media_type.split('/')[-1].lower()` — which is `svg+xml` for the standard
SVG media type — against the literal `svg`, so a DIRECT item with media type
`image/svg+xml` is NOT skipped: its extension is forced to `jpg` and the file
`<id>.jpg` is written whenever the codec accepts the payload (PIL sniffs
content, so a decodable payload declared `image/svg+xml` is written).  Only
the markup-resolution path (line 75) has the correct exact-match guard. -/
theorem C2_svg_direct_item_written :
    extract_images_from_item (fun _ => true) (fun _ => [])
      ⟨"v".toList, "image/svg+xml".toList, "images/v.svg".toList, [7]⟩ []
      ["out".toList, "b".toList] =
    [⟨["out".toList, "b".toList, "v.jpg".toList], [7]⟩] := by
  decide

/-- C3 counterexample: `Path.rglob` raises nothing when the root directory
does not exist — it silently yields no entries (CPython pathlib semantics,
checked on CPython 3.11) — so `find_epubs` on a filesystem without the input
root is an ordinary empty result, not a `NotFoundError`: no failure of any
kind exists in the scanner, contradicting the claim that a missing input root
makes the run fail with a propagated `NotFoundError`. -/
theorem C3_missing_root_counterexample :
    ["missing".toList] ∉ (FS.mk [["other".toList]] [["other".toList, "x.epub".toList]]).dirs
    ∧ find_epubs (FS.mk [["other".toList]] [["other".toList, "x.epub".toList]])
        ["missing".toList] = []
    ∧ find_images (FS.mk [["other".toList]] [["other".toList, "x.epub".toList]])
        ["missing".toList] = [] := by
  decide

/-- C3 (amended): a missing input root is not an error at all — on any
well-formed filesystem snapshot (every strict ancestor of a file exists as a
directory) whose directories do not include the root, both scanners return
the empty list; the scanners are total functions and never fail. -/
theorem C3_missing_root_yields_empty (fs : FS) (root : FPath) (hroot : root ≠ [])
    (hmem : root ∉ fs.dirs)
    (hwf : ∀ p ∈ fs.files, ∀ k, k < p.length → 0 < k → p.take k ∈ fs.dirs) :
    find_epubs fs root = [] ∧ find_images fs root = [] := by
  have hnone : ∀ p ∈ fs.files, isUnder root p = false := by
    intro p hp
    by_contra hne
    have hU : isUnder root p = true := by
      cases h : isUnder root p
      · exact absurd h hne
      · rfl
    rw [isUnder, Bool.and_eq_true] at hU
    obtain ⟨hpre, hlt⟩ := hU
    rw [ List.isPrefixOf_iff_prefix] at hpre
    have hlen : root.length < p.length := of_decide_eq_true hlt
    have htake : p.take root.length = root := (List.prefix_iff_eq_take.mp hpre).symm
    have hdir := hwf p hp root.length hlen (List.length_pos.mpr hroot)
    rw [htake] at hdir
    exact hmem hdir
  constructor
  · rw [find_epubs]
    apply List.filter_eq_nil_iff.mpr
    intro p hp
    simp [hnone p hp]
  · rw [find_images]
    apply List.filter_eq_nil_iff.mpr
    intro p hp
    simp [hnone p hp]

/-- C3 witness: the amended theorem at the counterexample filesystem. -/
theorem C3_missing_root_yields_empty_witness :
    find_epubs (FS.mk [["other".toList]] [["other".toList, "x.epub".toList]])
        ["missing".toList] = []
    ∧ find_images (FS.mk [["other".toList]] [["other".toList, "x.epub".toList]])
        ["missing".toList] = [] :=
  C3_missing_root_yields_empty
    (FS.mk [["other".toList]] [["other".toList, "x.epub".toList]]) ["missing".toList]
    (by decide) (by decide) (by decide)

/-- C4: when the OCR engine raises on an image (`readtext` returns an error),
`process_image` writes nothing (returns `none`), and the batch loop step for
that image leaves the write list and the succeeded counter unchanged, bumps
the failed counter by exactly one, and continues with the remaining images. -/
theorem C4_recognition_failure_counts (readtext : FPath → Except Unit (List Str))
    (date_str user : Str) (input_root output_root : FPath) (image_path : FPath)
    (rest : List FPath) (ws : List (FPath × Str)) (s f : Nat) (out : FPath)
    (hout : create_output_path image_path input_root output_root = some out)
    (hfail : readtext image_path = Except.error ()) :
    process_image readtext date_str user image_path = none
    ∧ ocr_batch readtext date_str user input_root output_root (image_path :: rest)
        (ws, s, f) =
      ocr_batch readtext date_str user input_root output_root rest (ws, s, f + 1) := by
  have hp : process_image readtext date_str user image_path = none := by
    rw [process_image, hfail]
  refine ⟨hp, ?_⟩
  rw [ocr_batch, hout]
  dsimp only
  rw [hp]

/-- C4 witness: a concrete failing image — the artifact is absent and the
step takes counters (0, 0) to (0, 1). -/
theorem C4_recognition_failure_counts_witness :
    process_image (fun _ => Except.error ()) "d".toList "u".toList
        ["in".toList, "a.png".toList] = none
    ∧ ocr_batch (fun _ => Except.error ()) "d".toList "u".toList ["in".toList]
        ["o".toList] [["in".toList, "a.png".toList]] ([], 0, 0) =
      ocr_batch (fun _ => Except.error ()) "d".toList "u".toList ["in".toList]
        ["o".toList] [] ([], 0, 1) :=
  C4_recognition_failure_counts (fun _ => Except.error ()) "d".toList "u".toList
    ["in".toList] ["o".toList] ["in".toList, "a.png".toList] [] [] 0 0
    ["o".toList, "a.txt".toList] (by decide) rfl

/-- `pathWithSuffix` on a path with an explicit last component. -/
theorem pathWithSuffix_concat (dirs : FPath) (name suffix : Str) :
    pathWithSuffix (dirs ++ [name]) suffix = some (dirs ++ [pyWithSuffix name suffix]) := by
  rw [pathWithSuffix, List.getLast?_concat]
  dsimp only
  rw [List.dropLast_concat]

/-- C5: the mirroring of `create_output_path` satisfies the round-trip law:
for any image path below the scan root whose (lower-cased) pathlib suffix is
a recognized image extension, taking the produced output path, stripping the
output root and the `.txt` extension, and re-attaching the image's original
extension yields exactly the image's path relative to the scan root. -/
theorem C5_output_path_roundtrip (input_root output_root dirs : FPath) (name : Str)
    (h : lowerStr (pySuffix name) ∈ image_extensions) :
    (create_output_path (input_root ++ (dirs ++ [name])) input_root output_root).bind
        (fun out => (relative_to out output_root).bind
          (fun rel => pathWithSuffix rel (pySuffix name))) =
      relative_to (input_root ++ (dirs ++ [name])) input_root := by
  have hname : name ≠ [] := by
    intro he
    rw [he] at h
    revert h
    decide
  rw [create_output_path, relative_to_append]
  simp only [Option.some_bind]
  rw [pathWithSuffix_concat]
  simp only [Option.map_some', Option.some_bind]
  rw [relative_to_append]
  simp only [Option.some_bind]
  rw [pathWithSuffix_concat, pyWithSuffix_roundtrip name hname]

/-- C5 witness: the round-trip law at a concrete image path. -/
theorem C5_output_path_roundtrip_witness :
    (create_output_path (["in".toList] ++ (["sub".toList] ++ ["page.png".toList]))
        ["in".toList] ["o".toList]).bind
        (fun out => (relative_to out ["o".toList]).bind
          (fun rel => pathWithSuffix rel (pySuffix ("page.png".toList)))) =
      relative_to (["in".toList] ++ (["sub".toList] ++ ["page.png".toList])) ["in".toList] :=
  C5_output_path_roundtrip ["in".toList] ["o".toList] ["sub".toList] ("page.png".toList)
    (by decide)

/-- C6: the artifact written for a successfully recognized image has exactly
4 header lines (source image name, UTC timestamp, operator identity, the
50-dash separator), then one blank line, then exactly one recognized line per
engine output line, in engine order, each newline-terminated; and for the
recognized lines `Hello`, `World` the body after the header block is exactly
`Hello\nWorld\n`. -/
theorem C6_artifact_format (image_name date_str user : Str) (lines : List Str)
    (h1 : NlFree image_name) (h2 : NlFree date_str) (h3 : NlFree user)
    (h4 : ∀ l ∈ lines, NlFree l) :
    splitLines (artifactContent image_name date_str user lines) =
      ["Source Image: ".toList ++ image_name,
       "Processing Date (UTC): ".toList ++ date_str,
       "Processed by: ".toList ++ user,
       List.replicate 50 '-', []] ++ lines ++ [[]]
    ∧ artifactContent image_name date_str user ["Hello".toList, "World".toList] =
        headerBlock image_name date_str user ++ "Hello\nWorld\n".toList := by
  constructor
  · have e1 : artifactContent image_name date_str user lines =
        ("Source Image: ".toList ++ image_name) ++ '\n' ::
          (("Processing Date (UTC): ".toList ++ date_str) ++ '\n' ::
            (("Processed by: ".toList ++ user) ++ '\n' ::
              (List.replicate 50 '-' ++ '\n' ::
                ('\n' :: (lines.map (fun l => l ++ ['\n'])).flatten)))) := by
      rw [artifactContent, headerBlock, foldl_append_flatten]
      simp [List.append_assoc]
    have hA : '\n' ∉ "Source Image: ".toList ++ image_name := by
      intro hm
      rcases List.mem_append.mp hm with hm | hm
      · revert hm; decide
      · exact h1 hm
    have hB : '\n' ∉ "Processing Date (UTC): ".toList ++ date_str := by
      intro hm
      rcases List.mem_append.mp hm with hm | hm
      · revert hm; decide
      · exact h2 hm
    have hC : '\n' ∉ "Processed by: ".toList ++ user := by
      intro hm
      rcases List.mem_append.mp hm with hm | hm
      · revert hm; decide
      · exact h3 hm
    have hD : '\n' ∉ List.replicate 50 '-' := by decide
    rw [e1]
    rw [splitLines_append_line _ _ hA, splitLines_append_line _ _ hB,
      splitLines_append_line _ _ hC, splitLines_append_line _ _ hD, splitLines_cons_nl]
    rw [show splitLines ((lines.map (fun l => l ++ ['\n'])).flatten) = lines ++ [[]] from
      splitOnChar_flatten '\n' lines h4]
    simp
  · rw [artifactContent]
    congr 1

/-- C6 witness: the format at a concrete image, timestamp, operator and
recognized lines. -/
theorem C6_artifact_format_witness :
    splitLines (artifactContent ("page1.jpg".toList) ("2025-01-01 00:00:00".toList)
        ("op".toList) ["Hello".toList, "World".toList]) =
      ["Source Image: ".toList ++ "page1.jpg".toList,
       "Processing Date (UTC): ".toList ++ "2025-01-01 00:00:00".toList,
       "Processed by: ".toList ++ "op".toList,
       List.replicate 50 '-', []] ++ ["Hello".toList, "World".toList] ++ [[]]
    ∧ artifactContent ("page1.jpg".toList) ("2025-01-01 00:00:00".toList) ("op".toList)
        ["Hello".toList, "World".toList] =
      headerBlock ("page1.jpg".toList) ("2025-01-01 00:00:00".toList) ("op".toList) ++
        "Hello\nWorld\n".toList :=
  C6_artifact_format ("page1.jpg".toList) ("2025-01-01 00:00:00".toList) ("op".toList)
    ["Hello".toList, "World".toList] (by decide) (by decide) (by decide) (by decide)

/-- C7 counterexample: in the claimed scenario (`src="../images/pic.jpg"`,
resource `fileName="images/pic.jpg"`, `mediaType=image/jpeg`) the media-type
suffix is `jpeg`, which IS in the allow-list of src/epub2img.py line 82, so
the extension is kept as `jpeg`: the file written is
`<out>/<stem>/pic1.jpeg`, and no file `<out>/<stem>/pic1.jpg` is written —
the claim's asserted output name `<picResourceId>.jpg` is wrong. -/
theorem C7_scenario_counterexample :
    (⟨["out".toList, "stem".toList, "pic1.jpg".toList], [3]⟩ : WriteEvent) ∉
      extract_images_from_item (fun _ => true)
        (fun _ => [some ("../images/pic.jpg".toList)])
        ⟨"page".toList, "application/xhtml+xml".toList, "p.xhtml".toList, [8]⟩
        [⟨"page".toList, "application/xhtml+xml".toList, "p.xhtml".toList, [8]⟩,
         ⟨"pic1".toList, "image/jpeg".toList, "images/pic.jpg".toList, [3]⟩]
        ["out".toList, "stem".toList] := by
  decide

/-- C7 (amended): in the scenario the cleaning step does yield
`images/pic.jpg`, the substring containment match does succeed, and the file
written is `<out>/<stem>/<picResourceId>.jpeg` (extension `jpeg` from the
media type, not `jpg`). -/
theorem C7_scenario_jpeg_written :
    cleanSrc ("../images/pic.jpg".toList) = "images/pic.jpg".toList
    ∧ isSubstr ("images/pic.jpg".toList) ("images/pic.jpg".toList) = true
    ∧ extract_images_from_item (fun _ => true)
        (fun _ => [some ("../images/pic.jpg".toList)])
        ⟨"page".toList, "application/xhtml+xml".toList, "p.xhtml".toList, [8]⟩
        [⟨"page".toList, "application/xhtml+xml".toList, "p.xhtml".toList, [8]⟩,
         ⟨"pic1".toList, "image/jpeg".toList, "images/pic.jpg".toList, [3]⟩]
        ["out".toList, "stem".toList] =
      [⟨["out".toList, "stem".toList, "pic1.jpeg".toList], [3]⟩] := by
  refine ⟨by decide, by decide, by decide⟩

/-- C8 counterexample: the allow-list test of src/epub2img.py line 43 is
done on the LOWER-CASED suffix but the original-case suffix is what gets
written: a direct item with media type `image/PNG` passes the test (since
`png` is allowed) and is written as `p1.PNG` — its extension `PNG` is not a
member of {jpeg, jpg, png, gif}, and the claim's prescribed name `p1.jpg`
(forced `jpg` because `PNG` is not in the set) is not written. -/
theorem C8_extension_case_counterexample :
    extract_images_from_item (fun _ => true) (fun _ => [])
      ⟨"p1".toList, "image/PNG".toList, "cover.png".toList, [5]⟩ [] ["o".toList] =
      [⟨["o".toList, "p1.PNG".toList], [5]⟩]
    ∧ "PNG".toList ∉ validExtensions
    ∧ (⟨["o".toList, "p1.jpg".toList], [5]⟩ : WriteEvent) ∉
        extract_images_from_item (fun _ => true) (fun _ => [])
          ⟨"p1".toList, "image/PNG".toList, "cover.png".toList, [5]⟩ [] ["o".toList] := by
  refine ⟨by decide, by decide, by decide⟩

/-- C8 (amended): every file the extractor writes — through either branch —
is named `<resourceId>.<ext>` where `<ext>` is the media-type suffix
(original case preserved) when its LOWER-CASING is in {jpeg, jpg, png, gif},
and `jpg` otherwise; hence every written extension lower-cases into the
allow-list (but need not itself belong to it). -/
theorem C8_extension_invariant (decodeOk : List Nat → Bool)
    (parseImgSrcs : List Nat → List (Option Str)) (item : EpubItem)
    (book : List EpubItem) (output_folder : FPath) (w : WriteEvent)
    (hw : w ∈ extract_images_from_item decodeOk parseImgSrcs item book output_folder) :
    ∃ it : EpubItem, w.path = output_folder ++ [it.id ++ '.' :: extOf it.media_type] ∧
      lowerStr (extOf it.media_type) ∈ validExtensions := by
  rw [extract_images_from_item] at hw
  by_cases hx1 : ("image/".toList.isPrefixOf item.media_type) = true
  · rw [if_pos hx1] at hw
    by_cases hx2 : lowerStr (mediaSuffix item.media_type) = "svg".toList
    · rw [if_pos hx2] at hw
      simp at hw
    · rw [if_neg hx2] at hw
      by_cases hx3 : decodeOk item.content = true
      · rw [if_pos hx3, List.mem_singleton] at hw
        subst hw
        exact ⟨item, rfl, lowerStr_extOf_mem _⟩
      · rw [if_neg hx3] at hw
        simp at hw
  · rw [if_neg hx1] at hw
    by_cases hx2 : item.media_type = "application/xhtml+xml".toList
    · rw [if_pos hx2, foldl_append_flatten, List.nil_append] at hw
      obtain ⟨l, hl, hwl⟩ := List.mem_flatten.mp hw
      obtain ⟨osrc, hosrc, rfl⟩ := List.mem_map.mp hl
      cases osrc with
      | none => simp [handleSrc] at hwl
      | some src =>
        rw [handleSrc] at hwl
        by_cases hx3 : src = []
        · rw [if_pos hx3] at hwl
          simp at hwl
        · rw [if_neg hx3] at hwl
          by_cases hx4 : ("http".toList.isPrefixOf src) = true
          · rw [if_pos hx4] at hwl
            simp at hwl
          · rw [if_neg hx4, foldl_append_flatten, List.nil_append] at hwl
            obtain ⟨l2, hl2, hwl2⟩ := List.mem_flatten.mp hwl
            obtain ⟨it, hit, rfl⟩ := List.mem_map.mp hl2
            rw [resolveWrite] at hwl2
            by_cases hx5 : isSubstr (cleanSrc src) it.file_name = true
            · rw [if_pos hx5] at hwl2
              by_cases hx6 : it.media_type = "image/svg+xml".toList
              · rw [if_pos hx6] at hwl2
                simp at hwl2
              · rw [if_neg hx6] at hwl2
                by_cases hx7 : decodeOk it.content = true
                · rw [if_pos hx7, List.mem_singleton] at hwl2
                  subst hwl2
                  exact ⟨it, rfl, lowerStr_extOf_mem _⟩
                · rw [if_neg hx7] at hwl2
                  simp at hwl2
            · rw [if_neg hx5] at hwl2
              simp at hwl2
    · rw [if_neg hx2] at hw
      simp at hw

/-- C8 witness: the invariant at the `image/PNG` write of the
counterexample — its extension `PNG` lower-cases into the allow-list. -/
theorem C8_extension_invariant_witness :
    ∃ it : EpubItem,
      (⟨["o".toList, "p1.PNG".toList], [5]⟩ : WriteEvent).path =
        ["o".toList] ++ [it.id ++ '.' :: extOf it.media_type] ∧
      lowerStr (extOf it.media_type) ∈ validExtensions :=
  C8_extension_invariant (fun _ => true) (fun _ => [])
    ⟨"p1".toList, "image/PNG".toList, "cover.png".toList, [5]⟩ [] ["o".toList]
    ⟨["o".toList, "p1.PNG".toList], [5]⟩ (by decide)

/-- C9: in both pipelines the succeeded and failed counters partition the
units discovered by the scanner — after the batch loop the two counters sum
to the number of discovered units, and the same holds after each processed
prefix of the unit list (for the OCR loop, whenever the loop completes
normally). -/
theorem C9_counters_partition_units (decodeOk : List Nat → Bool)
    (parseImgSrcs : List Nat → List (Option Str))
    (readEpub : FPath → Option (List EpubItem)) (input_folder output_folder : FPath)
    (fs : FS) (readtext : FPath → Except Unit (List Str)) (date_str user : Str)
    (input_root output_root : FPath) :
    ((process_all_epubs decodeOk parseImgSrcs readEpub input_folder output_folder fs).1 +
        (process_all_epubs decodeOk parseImgSrcs readEpub input_folder output_folder fs).2 =
      (find_epubs fs input_folder).length)
    ∧ (∀ k,
        (tallyLoop (fun p => (process_epub decodeOk parseImgSrcs readEpub output_folder p).2.2)
            ((find_epubs fs input_folder).take k)).1 +
          (tallyLoop (fun p => (process_epub decodeOk parseImgSrcs readEpub output_folder p).2.2)
            ((find_epubs fs input_folder).take k)).2 =
          ((find_epubs fs input_folder).take k).length)
    ∧ (∀ res : OcrState,
        ocr_batch readtext date_str user input_root output_root
            (find_images fs input_root) ([], 0, 0) = Except.ok res →
          res.2.1 + res.2.2 = (find_images fs input_root).length)
    ∧ (∀ (k : Nat) (res : OcrState),
        ocr_batch readtext date_str user input_root output_root
            ((find_images fs input_root).take k) ([], 0, 0) = Except.ok res →
          res.2.1 + res.2.2 = ((find_images fs input_root).take k).length) := by
  refine ⟨?_, ?_, ?_, ?_⟩
  · rw [process_all_epubs]
    exact tallyLoop_sum _ _
  · intro k
    exact tallyLoop_sum _ _
  · intro res h
    have := ocr_batch_counts readtext date_str user input_root output_root
      (find_images fs input_root) ([], 0, 0) res h
    simpa using this
  · intro k res h
    have := ocr_batch_counts readtext date_str user input_root output_root
      ((find_images fs input_root).take k) ([], 0, 0) res h
    simpa using this

/-- C9 witness: the partition at a concrete run — one epub whose reader
fails (counters (0, 1)) and one image whose recognition fails (counters
(0, 1)). -/
theorem C9_counters_partition_units_witness :
    ((process_all_epubs (fun _ => true) (fun _ => []) (fun _ => none) ["in".toList]
        ["o".toList]
        (FS.mk [["in".toList]]
          [["in".toList, "a.epub".toList], ["in".toList, "b.png".toList]])).1 +
      (process_all_epubs (fun _ => true) (fun _ => []) (fun _ => none) ["in".toList]
        ["o".toList]
        (FS.mk [["in".toList]]
          [["in".toList, "a.epub".toList], ["in".toList, "b.png".toList]])).2 =
      (find_epubs
        (FS.mk [["in".toList]]
          [["in".toList, "a.epub".toList], ["in".toList, "b.png".toList]])
        ["in".toList]).length)
    ∧ (([], 0, 1) : OcrState).2.1 + (([], 0, 1) : OcrState).2.2 =
      (find_images
        (FS.mk [["in".toList]]
          [["in".toList, "a.epub".toList], ["in".toList, "b.png".toList]])
        ["in".toList]).length :=
  ⟨(C9_counters_partition_units (fun _ => true) (fun _ => []) (fun _ => none)
      ["in".toList] ["o".toList]
      (FS.mk [["in".toList]]
        [["in".toList, "a.epub".toList], ["in".toList, "b.png".toList]])
      (fun _ => Except.error ()) "d".toList "u".toList ["in".toList] ["o".toList]).1,
   (C9_counters_partition_units (fun _ => true) (fun _ => []) (fun _ => none)
      ["in".toList] ["o".toList]
      (FS.mk [["in".toList]]
        [["in".toList, "a.epub".toList], ["in".toList, "b.png".toList]])
      (fun _ => Except.error ()) "d".toList "u".toList ["in".toList]
      ["o".toList]).2.2.1 ([], 0, 1) rfl⟩

/-- C10: `process_epub` creates the per-container output subfolder (named by
the container's stem) before opening the container, so the subfolder is
among the created directories in every outcome; in particular when the
reader fails the result is exactly: the subfolder created, nothing written,
and the container reported as failed. -/
theorem C10_subfolder_created_before_open (decodeOk : List Nat → Bool)
    (parseImgSrcs : List Nat → List (Option Str))
    (readEpub : FPath → Option (List EpubItem)) (output_folder epub_path : FPath) :
    (output_folder ++ [pyStem (epub_path.getLastD [])]) ∈
      (process_epub decodeOk parseImgSrcs readEpub output_folder epub_path).1
    ∧ (readEpub epub_path = none →
        process_epub decodeOk parseImgSrcs readEpub output_folder epub_path =
          ([output_folder ++ [pyStem (epub_path.getLastD [])]], [], false)) := by
  constructor
  · rw [process_epub]
    cases readEpub epub_path <;> simp
  · intro h
    rw [process_epub, h]

/-- C10 witness: a concrete failing container — the subfolder `o/book` is
created even though reading `in/book.epub` fails. -/
theorem C10_subfolder_created_before_open_witness :
    (["o".toList] ++ [pyStem (["in".toList, "book.epub".toList].getLastD [])]) ∈
      (process_epub (fun _ => true) (fun _ => []) (fun _ => none) ["o".toList]
        ["in".toList, "book.epub".toList]).1
    ∧ process_epub (fun _ => true) (fun _ => []) (fun _ => none) ["o".toList]
        ["in".toList, "book.epub".toList] =
      ([["o".toList] ++ [pyStem (["in".toList, "book.epub".toList].getLastD [])]], [],
        false) :=
  ⟨(C10_subfolder_created_before_open (fun _ => true) (fun _ => []) (fun _ => none)
      ["o".toList] ["in".toList, "book.epub".toList]).1,
   (C10_subfolder_created_before_open (fun _ => true) (fun _ => []) (fun _ => none)
      ["o".toList] ["in".toList, "book.epub".toList]).2 rfl⟩
